import Mathlib

/-! # ELF header reader (`0x15-file_io/100-elf_header.c`)

A shallow embedding of the header decoding functions `check_elf`, `print_magic`,
`print_class`, `print_data`, `print_version`, `print_osabi`, `print_abi`, `print_type`
and `print_entry`, followed by theorems about them.

Conventions of the embedding:

* `unsigned char` is `Fin 256`; a buffer `unsigned char *` is the map from offsets to bytes;
* `unsigned int` and `unsigned long` arguments are natural numbers, below `2 ^ 32` and
  `2 ^ 64` (LP64); a left shift is followed by an explicit reduction modulo `2 ^ 64`;
* a `void` function that prints is the `Effect` it has on the process: the text appended to
  standard output, the text appended to standard error, and the exit status when the call
  terminates the process.
-/

namespace ElfHeader

/-! ## Machine types and the process effect -/

/-- The C type `unsigned char`. -/
abbrev UChar := Fin 256

/-- A buffer `unsigned char *new_ident`: the byte stored at each offset. -/
abbrev Ident := Nat → UChar

/-- The buffer that starts with the given bytes (offsets past the list read as zero). -/
def identOf (bytes : List UChar) : Ident := fun idx => bytes.getD idx 0

/-- What a call does to the process: text written to standard output, text written to
standard error, and the status passed to `exit` when the call ends the process. -/
structure Effect where
  out : String
  err : String
  exit : Option Nat
deriving DecidableEq, Repr

/-- The effect of doing nothing and returning. -/
def Effect.skip : Effect := ⟨"", "", none⟩

/-- Sequencing `a; b`: nothing of `b` happens once `a` has ended the process. -/
def Effect.andThen (a b : Effect) : Effect :=
  match a.exit with
  | some _ => a
  | none => ⟨a.out ++ b.out, a.err ++ b.err, b.exit⟩

/-- The call `printf(...)`, given the formatted text. -/
def printf (text : String) : Effect := ⟨text, "", none⟩

/-- The call `dprintf(STDERR_FILENO, ...)`, given the formatted text. -/
def dprintf_stderr (text : String) : Effect := ⟨"", text, none⟩

/-- The call `exit(status)`. -/
def exit (status : Nat) : Effect := ⟨"", "", some status⟩

/-! ## `printf` conversions -/

/-- Conversion `%x`: lowercase hexadecimal, no leading zeros. -/
def fmt_x (n : Nat) : String := String.mk (Nat.toDigits 16 n)

/-- Conversion `%d` of a non-negative value: decimal. -/
def fmt_d (n : Nat) : String := String.mk (Nat.toDigits 10 n)

/-- Conversion `%02x`: lowercase hexadecimal, zero-padded to at least two digits. -/
def fmt_02x (n : Nat) : String := if n < 16 then "0" ++ fmt_x n else fmt_x n

/-- Conversions `%#x` and `%#lx`: lowercase hexadecimal after `0x`, except that zero is
printed as a bare `0`. -/
def fmt_alt_x (n : Nat) : String := if n = 0 then "0" else "0x" ++ fmt_x n

/-! ## Constants of `<elf.h>` -/

/-- Modelled from the spec: `EI_NIDENT` of `<elf.h>`, the size of the identification block
("conventionally 16 bytes"). -/
def EI_NIDENT : Nat := 16

/-- Modelled from the spec: `EI_CLASS` of `<elf.h>`, the offset of the class byte. -/
def EI_CLASS : Nat := 4

/-- Modelled from the spec: `EI_DATA` of `<elf.h>`, the offset of the data-encoding byte. -/
def EI_DATA : Nat := 5

/-- Modelled from the spec: `EI_VERSION` of `<elf.h>`, the offset of the version byte. -/
def EI_VERSION : Nat := 6

/-- Modelled from the spec: `EI_OSABI` of `<elf.h>`, the offset of the OS/ABI byte. -/
def EI_OSABI : Nat := 7

/-- Modelled from the spec: `EI_ABIVERSION` of `<elf.h>`, the offset of the ABI version
byte. -/
def EI_ABIVERSION : Nat := 8

/-- Modelled from the spec: `ELFCLASSNONE` of `<elf.h>` (class 0, None). -/
def ELFCLASSNONE : Nat := 0

/-- Modelled from the spec: `ELFCLASS32` of `<elf.h>` (class 1, ELF32). -/
def ELFCLASS32 : Nat := 1

/-- Modelled from the spec: `ELFCLASS64` of `<elf.h>` (class 2, ELF64). -/
def ELFCLASS64 : Nat := 2

/-- Modelled from the spec: `ELFDATANONE` of `<elf.h>` (encoding 0, None). -/
def ELFDATANONE : Nat := 0

/-- Modelled from the spec: `ELFDATA2LSB` of `<elf.h>` (encoding 1, little endian). -/
def ELFDATA2LSB : Nat := 1

/-- Modelled from the spec: `ELFDATA2MSB` of `<elf.h>` (encoding 2, big endian). -/
def ELFDATA2MSB : Nat := 2

/-- Modelled from the spec: `EV_CURRENT` of `<elf.h>`, the one "current" version (1). -/
def EV_CURRENT : Nat := 1

/-- Modelled from the spec: `ELFOSABI_NONE` of `<elf.h>` (System V = 0). -/
def ELFOSABI_NONE : Nat := 0

/-- Modelled from the spec: `ELFOSABI_HPUX` of `<elf.h>` (HP-UX = 1). -/
def ELFOSABI_HPUX : Nat := 1

/-- Modelled from the spec: `ELFOSABI_NETBSD` of `<elf.h>` (NetBSD = 2). -/
def ELFOSABI_NETBSD : Nat := 2

/-- Modelled from the spec: `ELFOSABI_LINUX` of `<elf.h>` (Linux = 3). -/
def ELFOSABI_LINUX : Nat := 3

/-- Modelled from the spec: `ELFOSABI_SOLARIS` of `<elf.h>` (Solaris = 6). -/
def ELFOSABI_SOLARIS : Nat := 6

/-- Modelled from the spec: `ELFOSABI_IRIX` of `<elf.h>` (IRIX = 8). -/
def ELFOSABI_IRIX : Nat := 8

/-- Modelled from the spec: `ELFOSABI_FREEBSD` of `<elf.h>` (FreeBSD = 9). -/
def ELFOSABI_FREEBSD : Nat := 9

/-- Modelled from the spec: `ELFOSABI_TRU64` of `<elf.h>` (TRU64 = 10). -/
def ELFOSABI_TRU64 : Nat := 10

/-- Modelled from the spec: `ELFOSABI_ARM` of `<elf.h>` (ARM = 97). -/
def ELFOSABI_ARM : Nat := 97

/-- Modelled from the spec: `ELFOSABI_STANDALONE` of `<elf.h>` (Standalone = 255). -/
def ELFOSABI_STANDALONE : Nat := 255

/-- Modelled from the spec: `ET_NONE` of `<elf.h>` (type 0, None). -/
def ET_NONE : Nat := 0

/-- Modelled from the spec: `ET_REL` of `<elf.h>` (type 1, Relocatable). -/
def ET_REL : Nat := 1

/-- Modelled from the spec: `ET_EXEC` of `<elf.h>` (type 2, Executable). -/
def ET_EXEC : Nat := 2

/-- Modelled from the spec: `ET_DYN` of `<elf.h>` (type 3, SharedObject). -/
def ET_DYN : Nat := 3

/-- Modelled from the spec: `ET_CORE` of `<elf.h>` (type 4, Core). -/
def ET_CORE : Nat := 4

/-! ## The functions of `100-elf_header.c` -/

/-- The loop of `check_elf` from index `idx` on, with `todo` iterations left: the first byte
that is none of `127`, `'E'`, `'L'`, `'F'` prints the diagnostic and exits with status 98. -/
def check_elf_loop (new_ident : Ident) : Nat → Nat → Effect
  | 0, _ => Effect.skip
  | todo + 1, idx =>
    if (new_ident idx).val ≠ 127 ∧
        (new_ident idx).val ≠ 'E'.toNat ∧
        (new_ident idx).val ≠ 'L'.toNat ∧
        (new_ident idx).val ≠ 'F'.toNat then
      (dprintf_stderr "Error: Not an ELF file\n").andThen (exit 98)
    else
      check_elf_loop new_ident todo (idx + 1)

/-- `check_elf`: `for (idx = 0; idx < 4; idx++)` over the first four bytes. -/
def check_elf (new_ident : Ident) : Effect :=
  check_elf_loop new_ident 4 0

/-- The loop of `print_magic` from index `idx` on, with `todo` iterations left. -/
def print_magic_loop (new_ident : Ident) : Nat → Nat → Effect
  | 0, _ => Effect.skip
  | todo + 1, idx =>
    (printf (fmt_02x (new_ident idx).val)).andThen
      ((if idx = EI_NIDENT - 1 then printf "\n" else printf " ").andThen
        (print_magic_loop new_ident todo (idx + 1)))

/-- `print_magic`: the label, then `for (idx = 0; idx < EI_NIDENT; idx++)`. -/
def print_magic (new_ident : Ident) : Effect :=
  (printf "  Magic:   ").andThen (print_magic_loop new_ident EI_NIDENT 0)

/-- `print_class`: the label, then a `switch` on `new_ident[EI_CLASS]`. -/
def print_class (new_ident : Ident) : Effect :=
  (printf "  Class:                             ").andThen
    (if (new_ident EI_CLASS).val = ELFCLASSNONE then printf "none\n"
     else if (new_ident EI_CLASS).val = ELFCLASS32 then printf "ELF32\n"
     else if (new_ident EI_CLASS).val = ELFCLASS64 then printf "ELF64\n"
     else printf ("<unknown: " ++ fmt_x (new_ident EI_CLASS).val ++ ">\n"))

/-- `print_data`: the label, then a `switch` on `new_ident[EI_DATA]`; the `default` case
formats `new_ident[EI_CLASS]`, as the source does. -/
def print_data (new_ident : Ident) : Effect :=
  (printf "  Data:                              ").andThen
    (if (new_ident EI_DATA).val = ELFDATANONE then printf "none\n"
     else if (new_ident EI_DATA).val = ELFDATA2LSB then
       printf "2's complement, little endian\n"
     else if (new_ident EI_DATA).val = ELFDATA2MSB then
       printf "2's complement, big endian\n"
     else printf ("<unknown: " ++ fmt_x (new_ident EI_CLASS).val ++ ">\n"))

/-- `print_version`: the label and the version in decimal, then a `switch` on
`new_ident[EI_VERSION]`. -/
def print_version (new_ident : Ident) : Effect :=
  (printf ("  Version:                           " ++
      fmt_d (new_ident EI_VERSION).val)).andThen
    (if (new_ident EI_VERSION).val = EV_CURRENT then printf " (current)\n"
     else printf "\n")

/-- `print_osabi`: the label, then a `switch` on `new_ident[EI_OSABI]`. -/
def print_osabi (new_ident : Ident) : Effect :=
  (printf "  OS/ABI:                            ").andThen
    (if (new_ident EI_OSABI).val = ELFOSABI_NONE then printf "UNIX - System V\n"
     else if (new_ident EI_OSABI).val = ELFOSABI_HPUX then printf "UNIX - HP-UX\n"
     else if (new_ident EI_OSABI).val = ELFOSABI_NETBSD then printf "UNIX - NetBSD\n"
     else if (new_ident EI_OSABI).val = ELFOSABI_LINUX then printf "UNIX - Linux\n"
     else if (new_ident EI_OSABI).val = ELFOSABI_SOLARIS then printf "UNIX - Solaris\n"
     else if (new_ident EI_OSABI).val = ELFOSABI_IRIX then printf "UNIX - IRIX\n"
     else if (new_ident EI_OSABI).val = ELFOSABI_FREEBSD then printf "UNIX - FreeBSD\n"
     else if (new_ident EI_OSABI).val = ELFOSABI_TRU64 then printf "UNIX - TRU64\n"
     else if (new_ident EI_OSABI).val = ELFOSABI_ARM then printf "ARM\n"
     else if (new_ident EI_OSABI).val = ELFOSABI_STANDALONE then printf "Standalone App\n"
     else printf ("<unknown: " ++ fmt_x (new_ident EI_OSABI).val ++ ">\n"))

/-- `print_abi`: the label and `new_ident[EI_ABIVERSION]` in decimal. -/
def print_abi (new_ident : Ident) : Effect :=
  printf ("  ABI Version:                       " ++
    fmt_d (new_ident EI_ABIVERSION).val ++ "\n")

/-- `print_type`: `new_type >>= 8` when the data encoding is `ELFDATA2MSB`, the label, then
a `switch` on the (possibly shifted) `new_type`, which is also what `default` formats. -/
def print_type (new_type : Nat) (new_ident : Ident) : Effect :=
  let new_type := if (new_ident EI_DATA).val = ELFDATA2MSB then new_type >>> 8 else new_type
  (printf "  Type:                              ").andThen
    (if new_type = ET_NONE then printf "NONE (None)\n"
     else if new_type = ET_REL then printf "REL (Relocatable file)\n"
     else if new_type = ET_EXEC then printf "EXEC (Executable file)\n"
     else if new_type = ET_DYN then printf "DYN (Shared object file)\n"
     else if new_type = ET_CORE then printf "CORE (Core file)\n"
     else printf ("<unknown: " ++ fmt_x new_type ++ ">\n"))

/-- The two assignments of `print_entry` under `ELFDATA2MSB`, on a 64-bit `unsigned long`. -/
def swap_entry (new_entry : Nat) : Nat :=
  let new_entry := (((new_entry <<< 8) % 2 ^ 64) &&& 0xFF00FF00) |||
    ((new_entry >>> 8) &&& 0xFF00FF)
  ((new_entry <<< 16) % 2 ^ 64) ||| (new_entry >>> 16)

/-- `print_entry`: the label, the byte swap when the data encoding is `ELFDATA2MSB`, then
`%#x` of the value cast to `unsigned int` for `ELFCLASS32` and `%#lx` otherwise. -/
def print_entry (new_entry : Nat) (new_ident : Ident) : Effect :=
  (printf "  Entry point address:               ").andThen
    (let new_entry :=
        if (new_ident EI_DATA).val = ELFDATA2MSB then swap_entry new_entry else new_entry
     if (new_ident EI_CLASS).val = ELFCLASS32 then
       printf (fmt_alt_x (new_entry % 2 ^ 32) ++ "\n")
     else
       printf (fmt_alt_x new_entry ++ "\n"))

/-- The value `print_type` switches on and formats: `new_type` after the conditional
`new_type >>= 8`. -/
def type_value (new_type : Nat) (new_ident : Ident) : Nat :=
  if (new_ident EI_DATA).val = ELFDATA2MSB then new_type >>> 8 else new_type

/-- The number `print_entry` hands to `printf`: `new_entry` after the conditional byte swap,
cast to `unsigned int` for `ELFCLASS32`. -/
def entry_value (new_entry : Nat) (new_ident : Ident) : Nat :=
  let new_entry :=
    if (new_ident EI_DATA).val = ELFDATA2MSB then swap_entry new_entry else new_entry
  if (new_ident EI_CLASS).val = ELFCLASS32 then new_entry % 2 ^ 32 else new_entry

/-! ## Vocabulary of the specification -/

/-- Membership of a byte in the set of signature byte values `0x7F`, `'E'` (`0x45`),
`'L'` (`0x4C`), `'F'` (`0x46`). -/
def inSignatureSet (b : UChar) : Prop :=
  b.val = 0x7F ∨ b.val = 0x45 ∨ b.val = 0x4C ∨ b.val = 0x46

instance : DecidablePred inSignatureSet := fun b => by
  unfold inSignatureSet; infer_instance

/-- A byte sequence that lacks at least one of the four required signature byte values. -/
def missesRequiredValue (bytes : List UChar) : Prop :=
  (0x7F : UChar) ∉ bytes ∨ (0x45 : UChar) ∉ bytes ∨ (0x4C : UChar) ∉ bytes ∨
    (0x46 : UChar) ∉ bytes

instance : DecidablePred missesRequiredValue := fun bytes => by
  unfold missesRequiredValue; infer_instance

/-- The effect of the fatal path of `check_elf`: nothing on standard output, the one
diagnostic line on standard error, exit status 98. -/
def notAnElf : Effect := ⟨"", "Error: Not an ELF file\n", some 98⟩

/-- The identification block `7F 45 4C 46 02 01 01 00 00 00 00 00 00 00 00 00`. -/
def sampleIdent : Ident :=
  identOf [0x7F, 0x45, 0x4C, 0x46, 0x02, 0x01, 0x01, 0x00,
    0x00, 0x00, 0x00, 0x00, 0x00, 0x00, 0x00, 0x00]

/-- The OS/ABI table of the specification: ten named values. -/
def osabiTable : List (Nat × String) :=
  [(0, "UNIX - System V"), (1, "UNIX - HP-UX"), (2, "UNIX - NetBSD"), (3, "UNIX - Linux"),
   (6, "UNIX - Solaris"), (8, "UNIX - IRIX"), (9, "UNIX - FreeBSD"), (10, "UNIX - TRU64"),
   (97, "ARM"), (255, "Standalone App")]

/-- The value of a lowercase hexadecimal digit; `none` for any other character. -/
def hexDigitValue (c : Char) : Option Nat :=
  let idx := "0123456789abcdef".data.indexOf c
  if idx < 16 then some idx else none

/-- Reading hexadecimal digits from the left, `acc` being the value read so far. -/
def parseHexFrom (acc : Nat) : List Char → Option Nat
  | [] => some acc
  | c :: cs =>
    match hexDigitValue c with
    | some d => parseHexFrom (16 * acc + d) cs
    | none => none

/-- Parsing a non-empty string of lowercase hexadecimal digits. -/
def parseHex (cs : List Char) : Option Nat :=
  if cs = [] then none else parseHexFrom 0 cs

/-- The text `cs` is the lowercase hexadecimal numeral of `n` without leading zeros: it
parses to `n`, and it starts with `0` only when it is `0` itself. -/
def isHexNumeralOf (cs : List Char) (n : Nat) : Prop :=
  parseHex cs = some n ∧ (cs.head? = some '0' → cs = ['0'])

instance (cs : List Char) (n : Nat) : Decidable (isHexNumeralOf cs n) := by
  unfold isHexNumeralOf; infer_instance

/-- The standard 4-byte endianness reversal of a 32-bit value: the byte of weight
`256 ^ i` moves to weight `256 ^ (3 - i)`. -/
def bswap32 (n : Nat) : Nat :=
  (n % 256) * 2 ^ 24 + (n / 2 ^ 8 % 256) * 2 ^ 16 + (n / 2 ^ 16 % 256) * 2 ^ 8 +
    n / 2 ^ 24 % 256

/-- The lowercase hexadecimal digit of value `d` (for `d < 16`). -/
def lowerHexDigit (d : Nat) : Char := "0123456789abcdef".data.getD d '0'

/-- A byte as exactly two lowercase hexadecimal digits, zero-padded. -/
def twoHexDigits (b : UChar) : List Char :=
  [lowerHexDigit (b.val / 16), lowerHexDigit (b.val % 16)]

/-- The tokens of the magic line: the 16 bytes of the identification block in index order,
each as two hexadecimal digits. -/
def magicTokens (new_ident : Ident) : List (List Char) :=
  (List.range 16).map (fun idx => twoHexDigits (new_ident idx))

/-- An effect that is exactly one line on standard output: the call returns, writes nothing
to standard error, and the text it prints ends with a newline and holds no other one. -/
def isOneLine (e : Effect) : Prop :=
  e.exit = none ∧ e.err = "" ∧ e.out.data.getLast? = some '\n' ∧ '\n' ∉ e.out.data.dropLast

instance (e : Effect) : Decidable (isOneLine e) := by
  unfold isOneLine; infer_instance

/-! ## Lemmas on `check_elf` -/

theorem check_elf_loop_step (new_ident : Ident) (todo idx : Nat) :
    check_elf_loop new_ident (todo + 1) idx =
      if inSignatureSet (new_ident idx) then check_elf_loop new_ident todo (idx + 1)
      else notAnElf := by
  by_cases h : inSignatureSet (new_ident idx)
  · have h' := h
    unfold inSignatureSet at h'
    have hc : ¬ ((new_ident idx).val ≠ 127 ∧ (new_ident idx).val ≠ 'E'.toNat ∧
        (new_ident idx).val ≠ 'L'.toNat ∧ (new_ident idx).val ≠ 'F'.toNat) := by
      have hE : 'E'.toNat = 0x45 := by decide
      have hL : 'L'.toNat = 0x4C := by decide
      have hF : 'F'.toNat = 0x46 := by decide
      rw [hE, hL, hF]
      omega
    rw [check_elf_loop, if_neg hc, if_pos h]
  · have h' := h
    unfold inSignatureSet at h'
    have hc : (new_ident idx).val ≠ 127 ∧ (new_ident idx).val ≠ 'E'.toNat ∧
        (new_ident idx).val ≠ 'L'.toNat ∧ (new_ident idx).val ≠ 'F'.toNat := by
      have hE : 'E'.toNat = 0x45 := by decide
      have hL : 'L'.toNat = 0x4C := by decide
      have hF : 'F'.toNat = 0x46 := by decide
      rw [hE, hL, hF]
      omega
    rw [check_elf_loop, if_pos hc, if_neg h]
    decide

theorem check_elf_loop_pass (new_ident : Ident) :
    ∀ todo idx : Nat,
      (∀ i, idx ≤ i → i < idx + todo → inSignatureSet (new_ident i)) →
      check_elf_loop new_ident todo idx = Effect.skip
  | 0, _, _ => by rw [check_elf_loop]
  | todo + 1, idx, h => by
    rw [check_elf_loop_step, if_pos (h idx (Nat.le_refl _) (by omega))]
    exact check_elf_loop_pass new_ident todo (idx + 1)
      (fun i h1 h2 => h i (by omega) (by omega))

theorem check_elf_loop_fatal (new_ident : Ident) :
    ∀ todo idx : Nat,
      (∃ i, idx ≤ i ∧ i < idx + todo ∧ ¬ inSignatureSet (new_ident i)) →
      check_elf_loop new_ident todo idx = notAnElf
  | 0, _, h => by
    obtain ⟨i, h1, h2, _⟩ := h
    omega
  | todo + 1, idx, h => by
    rw [check_elf_loop_step]
    by_cases hb : inSignatureSet (new_ident idx)
    · rw [if_pos hb]
      obtain ⟨i, h1, h2, h3⟩ := h
      have hne : i ≠ idx := fun e => h3 (e ▸ hb)
      exact check_elf_loop_fatal new_ident todo (idx + 1) ⟨i, by omega, by omega, h3⟩
    · rw [if_neg hb]

theorem check_elf_pass (new_ident : Ident)
    (h : ∀ idx, idx < 4 → inSignatureSet (new_ident idx)) :
    check_elf new_ident = Effect.skip :=
  check_elf_loop_pass new_ident 4 0 (fun i _ h2 => h i (by omega))

theorem check_elf_fatal (new_ident : Ident)
    (h : ∃ idx, idx < 4 ∧ ¬ inSignatureSet (new_ident idx)) :
    check_elf new_ident = notAnElf := by
  obtain ⟨i, h1, h2⟩ := h
  exact check_elf_loop_fatal new_ident 4 0 ⟨i, Nat.zero_le _, by omega, h2⟩

theorem check_elf_dichotomy (new_ident : Ident) :
    check_elf new_ident = Effect.skip ∨ check_elf new_ident = notAnElf := by
  by_cases h : ∀ idx, idx < 4 → inSignatureSet (new_ident idx)
  · exact Or.inl (check_elf_pass new_ident h)
  · refine Or.inr (check_elf_fatal new_ident ?_)
    push_neg at h
    exact h

theorem identOf_mem (bytes : List UChar) (idx : Nat) (h : idx < bytes.length) :
    identOf bytes idx ∈ bytes := by
  unfold identOf
  rw [List.getD_eq_getElem _ _ h]
  exact List.getElem_mem h

/-! ## Theorems on `check_elf` -/

/-- C1: `check_elf` returns normally (no output, no exit) exactly when each of the first
four bytes is, independently, one of `0x7F`, `'E'`, `'L'`, `'F'`; so it accepts the signature
`7F 45 4C 46` and every reordering of it, and it takes the fatal path as soon as one of the
first four bytes is outside that set. -/
theorem check_elf_accepts_iff_membership :
    (∀ new_ident : Ident,
      check_elf new_ident = Effect.skip ↔
        ∀ idx, idx < 4 → inSignatureSet (new_ident idx)) ∧
    check_elf (identOf [0x7F, 0x45, 0x4C, 0x46]) = Effect.skip ∧
    (∀ bytes : List UChar, bytes.Perm [0x7F, 0x45, 0x4C, 0x46] →
      check_elf (identOf bytes) = Effect.skip) ∧
    (∀ new_ident : Ident, (∃ idx, idx < 4 ∧ ¬ inSignatureSet (new_ident idx)) →
      check_elf new_ident = ⟨"", "Error: Not an ELF file\n", some 98⟩ ∧
      check_elf new_ident ≠ Effect.skip) := by
  refine ⟨fun new_ident => ⟨fun h => ?_, check_elf_pass new_ident⟩, by decide,
    fun bytes hp => ?_, fun new_ident h => ?_⟩
  · by_contra hn
    push_neg at hn
    rw [check_elf_fatal new_ident hn] at h
    exact absurd h (by decide)
  · refine check_elf_pass _ (fun idx hidx => ?_)
    have hlen : bytes.length = 4 := by rw [hp.length_eq]; rfl
    have hmem := hp.subset (identOf_mem bytes idx (by omega))
    revert hmem
    generalize identOf bytes idx = b
    intro hmem
    simp only [List.mem_cons, List.mem_singleton, List.not_mem_nil, or_false] at hmem
    rcases hmem with rfl | rfl | rfl | rfl <;> decide
  · rw [check_elf_fatal new_ident h]
    exact ⟨rfl, by decide⟩

/-- Witness for C1: the reordering `45 7F 46 4C` of the signature is accepted. -/
theorem check_elf_accepts_iff_membership_witness :
    List.Perm [(0x45 : UChar), 0x7F, 0x46, 0x4C] [0x7F, 0x45, 0x4C, 0x46] ∧
      check_elf (identOf [0x45, 0x7F, 0x46, 0x4C]) = Effect.skip :=
  ⟨by decide, check_elf_accepts_iff_membership.2.2.1 _ (by decide)⟩

/-- C2, as stated, fails: the sequence `7F 7F 7F 7F` lacks `'E'`, `'L'` and `'F'`, and
`check_elf` returns normally on it. -/
theorem check_elf_accepts_incomplete_signature :
    missesRequiredValue [0x7F, 0x7F, 0x7F, 0x7F] ∧
      check_elf (identOf [0x7F, 0x7F, 0x7F, 0x7F]) = Effect.skip ∧
      (check_elf (identOf [0x7F, 0x7F, 0x7F, 0x7F])).exit = none := by
  decide

/-- C2, amended: on every 4-byte sequence that contains a byte which is none of `0x7F`,
`'E'`, `'L'`, `'F'`, `check_elf` takes the fatal path (diagnostic line, exit status 98). -/
theorem check_elf_rejects_foreign_byte (bytes : List UChar) (hlen : bytes.length = 4)
    (hbad : ∃ b ∈ bytes, ¬ inSignatureSet b) :
    check_elf (identOf bytes) = ⟨"", "Error: Not an ELF file\n", some 98⟩ := by
  obtain ⟨b, hb, hn⟩ := hbad
  obtain ⟨i, hi, rfl⟩ := List.getElem_of_mem hb
  refine check_elf_fatal _ ⟨i, by omega, ?_⟩
  unfold identOf
  rw [List.getD_eq_getElem _ _ hi]
  exact hn

/-- Witness for the amended C2: `7F 45 4C 00` is rejected. -/
theorem check_elf_rejects_foreign_byte_witness :
    check_elf (identOf [0x7F, 0x45, 0x4C, 0x00]) = ⟨"", "Error: Not an ELF file\n", some 98⟩ :=
  check_elf_rejects_foreign_byte [0x7F, 0x45, 0x4C, 0x00] (by decide)
    ⟨0x00, by decide, by decide⟩

/-- C3: whenever `check_elf` does not return normally, its whole effect is the fatal one:
standard error receives exactly the one line `Error: Not an ELF file`, standard output
receives nothing, the process exits with status 98, and nothing sequenced after the call
(no report line) takes effect. -/
theorem check_elf_failure_is_fatal (new_ident : Ident)
    (hfail : check_elf new_ident ≠ Effect.skip) :
    (check_elf new_ident).err = "Error: Not an ELF file\n" ∧
      (check_elf new_ident).out = "" ∧
      (check_elf new_ident).exit = some 98 ∧
      ∀ rest : Effect, (check_elf new_ident).andThen rest = check_elf new_ident := by
  rcases check_elf_dichotomy new_ident with h | h
  · exact absurd h hfail
  · rw [h]
    exact ⟨rfl, rfl, rfl, fun _ => rfl⟩

/-- Witness for C3: the buffer starting `00 00 00 00`. -/
theorem check_elf_failure_is_fatal_witness :
    check_elf (identOf [0x00, 0x00, 0x00, 0x00]) ≠ Effect.skip ∧
      (check_elf (identOf [0x00, 0x00, 0x00, 0x00])).err = "Error: Not an ELF file\n" ∧
      (check_elf (identOf [0x00, 0x00, 0x00, 0x00])).out = "" ∧
      (check_elf (identOf [0x00, 0x00, 0x00, 0x00])).exit = some 98 ∧
      ∀ rest : Effect, (check_elf (identOf [0x00, 0x00, 0x00, 0x00])).andThen rest =
        check_elf (identOf [0x00, 0x00, 0x00, 0x00]) :=
  ⟨by decide, check_elf_failure_is_fatal (identOf [0x00, 0x00, 0x00, 0x00]) (by decide)⟩

/-! ## Lemmas on the field decoders -/

theorem printf_andThen_printf (a b : String) :
    (printf a).andThen (printf b) = printf (a ++ b) := rfl

theorem print_class_byte (new_ident : Ident) :
    print_class new_ident = print_class (identOf [0, 0, 0, 0, new_ident 4]) := rfl

theorem print_version_byte (new_ident : Ident) :
    print_version new_ident = print_version (identOf [0, 0, 0, 0, 0, 0, new_ident 6]) := rfl

theorem print_data_bytes (new_ident : Ident) :
    print_data new_ident = print_data (identOf [0, 0, 0, 0, new_ident 4, new_ident 5]) := rfl

/-- No line of a known data encoding has the shape of the fallback line. -/
theorem data_known_ne_unknown (h : String) :
    "  Data:                              none\n" ≠
        "  Data:                              <unknown: " ++ h ++ ">\n" ∧
      "  Data:                              2's complement, little endian\n" ≠
        "  Data:                              <unknown: " ++ h ++ ">\n" ∧
      "  Data:                              2's complement, big endian\n" ≠
        "  Data:                              <unknown: " ++ h ++ ">\n" := by
  refine ⟨fun e => ?_, fun e => ?_, fun e => ?_⟩ <;>
  · have := congrArg String.data e
    simp [String.data_append] at this

theorem osabiTable_lookup_none (b : Nat) (h0 : b ≠ 0) (h1 : b ≠ 1) (h2 : b ≠ 2) (h3 : b ≠ 3)
    (h6 : b ≠ 6) (h8 : b ≠ 8) (h9 : b ≠ 9) (h10 : b ≠ 10) (h97 : b ≠ 97) (h255 : b ≠ 255) :
    osabiTable.lookup b = none := by
  simp only [osabiTable, List.lookup_cons, List.lookup_nil, beq_false_of_ne h0,
    beq_false_of_ne h1, beq_false_of_ne h2, beq_false_of_ne h3, beq_false_of_ne h6,
    beq_false_of_ne h8, beq_false_of_ne h9, beq_false_of_ne h10, beq_false_of_ne h97,
    beq_false_of_ne h255]

set_option maxRecDepth 100000 in
/-- Among the version lines, only the one of byte 1 ends with ` (current)`. -/
theorem version_suffix_iff (v : UChar) :
    (" (current)\n").data <:+ (print_version (identOf [0, 0, 0, 0, 0, 0, v])).out.data ↔
      v.val = 1 := by
  revert v
  decide

/-! ## Theorems on the field decoders -/

/-- C4: on the block `7F 45 4C 46 02 01 01 00 00 00 00 00 00 00 00 00`, `check_elf` returns
normally and the decoders print, after their labels, `ELF64`, `2's complement, little
endian`, `1 (current)`, `UNIX - System V` and `0`; `print_abi` prints byte 8 of any buffer
as a plain decimal integer. -/
theorem sample_block_report :
    check_elf sampleIdent = Effect.skip ∧
    print_class sampleIdent = printf "  Class:                             ELF64\n" ∧
    print_data sampleIdent =
      printf "  Data:                              2's complement, little endian\n" ∧
    print_version sampleIdent = printf "  Version:                           1 (current)\n" ∧
    print_osabi sampleIdent = printf "  OS/ABI:                            UNIX - System V\n" ∧
    print_abi sampleIdent = printf "  ABI Version:                       0\n" ∧
    (∀ new_ident : Ident, print_abi new_ident =
      printf ("  ABI Version:                       " ++ Nat.repr (new_ident 8).val ++ "\n")) :=
  ⟨by decide, by decide, by decide, by decide, by decide, by decide, fun _ => rfl⟩

/-- C5: `print_class` prints, after its label, `none` for class byte 0, `ELF32` for 1,
`ELF64` for 2 and `<unknown: h>` with `h` the lowercase hexadecimal of the byte for every
other value (`<unknown: ab>` for `0xAB`); the line depends on no byte but `new_ident[4]`. -/
theorem print_class_decodes :
    (∀ new_ident : Ident,
      print_class new_ident =
        if (new_ident 4).val = 0 then printf "  Class:                             none\n"
        else if (new_ident 4).val = 1 then printf "  Class:                             ELF32\n"
        else if (new_ident 4).val = 2 then printf "  Class:                             ELF64\n"
        else printf ("  Class:                             <unknown: " ++
          String.mk (Nat.toDigits 16 (new_ident 4).val) ++ ">\n")) ∧
    print_class (identOf [0x7F, 0x45, 0x4C, 0x46, 0xAB]) =
      printf "  Class:                             <unknown: ab>\n" ∧
    (∀ new_ident other : Ident, other 4 = new_ident 4 →
      print_class other = print_class new_ident) := by
  refine ⟨fun new_ident => ?_, by decide, fun new_ident other h => ?_⟩
  · unfold print_class
    simp only [EI_CLASS, ELFCLASSNONE, ELFCLASS32, ELFCLASS64]
    split_ifs <;> rfl
  · rw [print_class_byte other, print_class_byte new_ident, h]

/-- Witness for C5: two buffers that agree on byte 4 only print the same class line. -/
theorem print_class_decodes_witness :
    print_class (identOf [0x7F, 0x45, 0x4C, 0x46, 0x02, 0x01, 0x01]) =
      print_class (identOf [0x00, 0x00, 0x00, 0x00, 0x02]) :=
  print_class_decodes.2.2 (identOf [0x00, 0x00, 0x00, 0x00, 0x02])
    (identOf [0x7F, 0x45, 0x4C, 0x46, 0x02, 0x01, 0x01]) (by decide)

/-- C6: `print_data` prints, after its label, `none` for data-encoding byte 0,
`2's complement, little endian` for 1 and `2's complement, big endian` for 2, and it prints
a fallback line `<unknown: ...>` exactly when the byte is none of 0, 1, 2. -/
theorem print_data_decodes (new_ident : Ident) :
    ((new_ident 5).val = 0 →
      print_data new_ident = printf "  Data:                              none\n") ∧
    ((new_ident 5).val = 1 →
      print_data new_ident =
        printf "  Data:                              2's complement, little endian\n") ∧
    ((new_ident 5).val = 2 →
      print_data new_ident =
        printf "  Data:                              2's complement, big endian\n") ∧
    ((∃ h : String, print_data new_ident =
        printf ("  Data:                              <unknown: " ++ h ++ ">\n")) ↔
      ((new_ident 5).val ≠ 0 ∧ (new_ident 5).val ≠ 1 ∧ (new_ident 5).val ≠ 2)) := by
  have key : ∀ c d : UChar,
      print_data (identOf [0, 0, 0, 0, c, d]) =
        if d.val = 0 then printf "  Data:                              none\n"
        else if d.val = 1 then
          printf "  Data:                              2's complement, little endian\n"
        else if d.val = 2 then
          printf "  Data:                              2's complement, big endian\n"
        else printf ("  Data:                              <unknown: " ++
          fmt_x c.val ++ ">\n") := by
    intro c d
    unfold print_data
    have h4 : identOf [0, 0, 0, 0, c, d] EI_CLASS = c := rfl
    have h5 : identOf [0, 0, 0, 0, c, d] EI_DATA = d := rfl
    rw [h4, h5]
    simp only [ELFDATANONE, ELFDATA2LSB, ELFDATA2MSB]
    split_ifs <;> rfl
  rw [print_data_bytes, key]
  generalize new_ident 5 = d
  generalize new_ident 4 = c
  have hne := data_known_ne_unknown
  refine ⟨fun h0 => by rw [if_pos h0], fun h1 => ?_, fun h2 => ?_, ?_⟩
  · have h0 : d.val ≠ 0 := by omega
    rw [if_neg h0, if_pos h1]
  · have h0 : d.val ≠ 0 := by omega
    have h1 : d.val ≠ 1 := by omega
    rw [if_neg h0, if_neg h1, if_pos h2]
  constructor
  · rintro ⟨h, e⟩
    refine ⟨fun h0 => ?_, fun h1 => ?_, fun h2 => ?_⟩
    · rw [if_pos h0] at e
      exact (hne h).1 (congrArg Effect.out e)
    · have h0 : d.val ≠ 0 := by omega
      rw [if_neg h0, if_pos h1] at e
      exact (hne h).2.1 (congrArg Effect.out e)
    · have h0 : d.val ≠ 0 := by omega
      have h1 : d.val ≠ 1 := by omega
      rw [if_neg h0, if_neg h1, if_pos h2] at e
      exact (hne h).2.2 (congrArg Effect.out e)
  · rintro ⟨h0, h1, h2⟩
    rw [if_neg h0, if_neg h1, if_neg h2]
    exact ⟨fmt_x c.val, rfl⟩

/-- Witness for C6: data-encoding byte 2 prints the big-endian line, and data-encoding
byte 3 prints a fallback line. -/
theorem print_data_decodes_witness :
    print_data (identOf [0x7F, 0x45, 0x4C, 0x46, 0x01, 0x02]) =
        printf "  Data:                              2's complement, big endian\n" ∧
      ∃ h : String, print_data (identOf [0x7F, 0x45, 0x4C, 0x46, 0x01, 0x03]) =
        printf ("  Data:                              <unknown: " ++ h ++ ">\n") :=
  ⟨(print_data_decodes (identOf [0x7F, 0x45, 0x4C, 0x46, 0x01, 0x02])).2.2.1 (by decide),
    (print_data_decodes (identOf [0x7F, 0x45, 0x4C, 0x46, 0x01, 0x03])).2.2.2.2
      (by decide)⟩

/-- C7, on the code: in its fallback case `print_data` formats the class byte
`new_ident[EI_CLASS]`, not the data-encoding byte; with class byte `0x02` and data-encoding
byte `0x03` the line reads `<unknown: 2>`, not `<unknown: 3>`. -/
theorem print_data_unknown_prints_class_byte :
    print_data (identOf [0x7F, 0x45, 0x4C, 0x46, 0x02, 0x03, 0x01]) =
      printf "  Data:                              <unknown: 2>\n" ∧
    print_data (identOf [0x7F, 0x45, 0x4C, 0x46, 0x02, 0x03, 0x01]) ≠
      printf "  Data:                              <unknown: 3>\n" ∧
    print_data (identOf [0x7F, 0x45, 0x4C, 0x46, 0x01, 0x03, 0x01]) =
      printf "  Data:                              <unknown: 1>\n" := by
  decide

set_option maxRecDepth 100000 in
/-- C8: `print_osabi` prints, after its label, the entry of the ten-entry table for the
OS/ABI byte (0 `UNIX - System V`, 1 `UNIX - HP-UX`, 2 `UNIX - NetBSD`, 3 `UNIX - Linux`,
6 `UNIX - Solaris`, 8 `UNIX - IRIX`, 9 `UNIX - FreeBSD`, 10 `UNIX - TRU64`, 97 `ARM`,
255 `Standalone App`), and for each of the 246 bytes without an entry the fallback
`<unknown: h>` with `h` the lowercase hexadecimal of the byte (`<unknown: fe>` for `0xFE`). -/
theorem print_osabi_decodes :
    (∀ new_ident : Ident,
      print_osabi new_ident =
        printf ("  OS/ABI:                            " ++
          (match osabiTable.lookup (new_ident 7).val with
           | some label => label
           | none => "<unknown: " ++ String.mk (Nat.toDigits 16 (new_ident 7).val) ++ ">") ++
          "\n")) ∧
    osabiTable.length = 10 ∧
    (Finset.univ.filter (fun b : UChar => osabiTable.lookup b.val = none)).card = 246 ∧
    print_osabi (identOf [0x7F, 0x45, 0x4C, 0x46, 0x02, 0x01, 0x01, 0xFE]) =
      printf "  OS/ABI:                            <unknown: fe>\n" := by
  refine ⟨fun new_ident => ?_, by decide, by decide, by decide⟩
  unfold print_osabi
  simp only [EI_OSABI, ELFOSABI_NONE, ELFOSABI_HPUX, ELFOSABI_NETBSD, ELFOSABI_LINUX,
    ELFOSABI_SOLARIS, ELFOSABI_IRIX, ELFOSABI_FREEBSD, ELFOSABI_TRU64, ELFOSABI_ARM,
    ELFOSABI_STANDALONE]
  generalize (new_ident 7).val = b
  by_cases h0 : b = 0
  · subst h0; rfl
  by_cases h1 : b = 1
  · subst h1; rfl
  by_cases h2 : b = 2
  · subst h2; rfl
  by_cases h3 : b = 3
  · subst h3; rfl
  by_cases h6 : b = 6
  · subst h6; rfl
  by_cases h8 : b = 8
  · subst h8; rfl
  by_cases h9 : b = 9
  · subst h9; rfl
  by_cases h10 : b = 10
  · subst h10; rfl
  by_cases h97 : b = 97
  · subst h97; rfl
  by_cases h255 : b = 255
  · subst h255; rfl
  rw [osabiTable_lookup_none b h0 h1 h2 h3 h6 h8 h9 h10 h97 h255, if_neg h0, if_neg h1,
    if_neg h2, if_neg h3, if_neg h6, if_neg h8, if_neg h9, if_neg h10, if_neg h97,
    if_neg h255, printf_andThen_printf]
  simp only [String.append_assoc]
  rfl

/-- C9: `print_version` prints, after its label, the version byte as a decimal integer,
followed by ` (current)` when the byte is 1 and by nothing otherwise; the line ends with
` (current)` if and only if the byte is 1. -/
theorem print_version_current_iff (new_ident : Ident) :
    print_version new_ident =
      printf ("  Version:                           " ++ Nat.repr (new_ident 6).val ++
        (if (new_ident 6).val = 1 then " (current)\n" else "\n")) ∧
    ((" (current)\n").data <:+ (print_version new_ident).out.data ↔
      (new_ident 6).val = 1) := by
  refine ⟨?_, ?_⟩
  · unfold print_version
    simp only [EI_VERSION, EV_CURRENT]
    split_ifs <;> rfl
  · rw [print_version_byte]
    exact version_suffix_iff (new_ident 6)

/-- C10: when the data-encoding byte is not `ELFDATA2MSB` (2), `print_type` matches the raw
type unshifted: it prints, after its label, `NONE (None)` for 0, `REL (Relocatable file)`
for 1, `EXEC (Executable file)` for 2, `DYN (Shared object file)` for 3, `CORE (Core file)`
for 4 and `<unknown: h>` with `h` the lowercase hexadecimal of the raw type otherwise. -/
theorem print_type_unshifted (new_type : Nat) (new_ident : Ident)
    (hdata : (new_ident 5).val ≠ 2) :
    print_type new_type new_ident =
      printf ("  Type:                              " ++
        (if new_type = 0 then "NONE (None)\n"
         else if new_type = 1 then "REL (Relocatable file)\n"
         else if new_type = 2 then "EXEC (Executable file)\n"
         else if new_type = 3 then "DYN (Shared object file)\n"
         else if new_type = 4 then "CORE (Core file)\n"
         else "<unknown: " ++ String.mk (Nat.toDigits 16 new_type) ++ ">\n")) := by
  unfold print_type
  have h5 : ¬ (new_ident EI_DATA).val = ELFDATA2MSB := hdata
  simp only [if_neg h5, ET_NONE, ET_REL, ET_EXEC, ET_DYN, ET_CORE]
  split_ifs <;> rfl

/-- Witness for C10: raw type `0x0002` with little-endian data encoding prints
`EXEC (Executable file)`, and raw type `0x0200` prints `<unknown: 200>`. -/
theorem print_type_unshifted_witness :
    print_type 0x0002 (identOf [0x7F, 0x45, 0x4C, 0x46, 0x02, 0x01]) =
        printf "  Type:                              EXEC (Executable file)\n" ∧
      print_type 0x0200 (identOf [0x7F, 0x45, 0x4C, 0x46, 0x02, 0x01]) =
        printf "  Type:                              <unknown: 200>\n" :=
  ⟨print_type_unshifted 0x0002 (identOf [0x7F, 0x45, 0x4C, 0x46, 0x02, 0x01]) (by decide),
    print_type_unshifted 0x0200 (identOf [0x7F, 0x45, 0x4C, 0x46, 0x02, 0x01]) (by decide)⟩

/-! ## Lemmas on the `printf` conversions -/

theorem toDigitsCore_append (b : Nat) : ∀ (fuel n : Nat) (ds : List Char),
    Nat.toDigitsCore b fuel n ds = Nat.toDigitsCore b fuel n [] ++ ds
  | 0, _, ds => by simp [Nat.toDigitsCore]
  | fuel + 1, n, ds => by
    simp only [Nat.toDigitsCore]
    split
    · simp
    · rw [toDigitsCore_append b fuel (n / b) (_ :: ds),
        toDigitsCore_append b fuel (n / b) [_]]
      simp

theorem toDigitsCore_fuel (b : Nat) (hb : 2 ≤ b) : ∀ (n fuel₁ fuel₂ : Nat),
    n < fuel₁ → n < fuel₂ →
    Nat.toDigitsCore b fuel₁ n [] = Nat.toDigitsCore b fuel₂ n [] := by
  intro n
  induction n using Nat.strong_induction_on with
  | _ n ih =>
    intro fuel₁ fuel₂ h₁ h₂
    obtain ⟨f₁, rfl⟩ : ∃ f, fuel₁ = f + 1 := ⟨fuel₁ - 1, by omega⟩
    obtain ⟨f₂, rfl⟩ : ∃ f, fuel₂ = f + 1 := ⟨fuel₂ - 1, by omega⟩
    simp only [Nat.toDigitsCore]
    split
    · rfl
    · rename_i hne
      have hpos : 0 < n := by
        rcases Nat.eq_zero_or_pos n with h | h
        · subst h; simp at hne
        · exact h
      have hlt : n / b < n := Nat.div_lt_self hpos (by omega)
      rw [toDigitsCore_append b f₁, toDigitsCore_append b f₂,
        ih (n / b) hlt f₁ f₂ (by omega) (by omega)]

theorem toDigits_small (b n : Nat) (h : n < b) :
    Nat.toDigits b n = [Nat.digitChar n] := by
  have h0 : n / b = 0 := Nat.div_eq_of_lt h
  simp [Nat.toDigits, Nat.toDigitsCore, h0, Nat.mod_eq_of_lt h]

theorem toDigits_step (b n : Nat) (hb : 2 ≤ b) (h : b ≤ n) :
    Nat.toDigits b n = Nat.toDigits b (n / b) ++ [Nat.digitChar (n % b)] := by
  have h0 : n / b ≠ 0 := by
    have := Nat.div_pos h (by omega)
    omega
  have hlt : n / b < n := Nat.div_lt_self (by omega) (by omega)
  unfold Nat.toDigits
  rw [Nat.toDigitsCore]
  simp only [h0, if_false]
  rw [toDigitsCore_append, toDigitsCore_fuel b hb (n / b) n (n / b + 1) hlt (by omega)]

theorem hexDigitValue_digitChar (d : Nat) (h : d < 16) :
    hexDigitValue (Nat.digitChar d) = some d := by
  interval_cases d <;> decide

theorem parseHexFrom_append (cs : List Char) (c : Char) : ∀ acc : Nat,
    parseHexFrom acc (cs ++ [c]) =
      (parseHexFrom acc cs).bind (fun v => (hexDigitValue c).map (fun d => 16 * v + d)) := by
  induction cs with
  | nil =>
    intro acc
    simp only [List.nil_append, parseHexFrom, Option.some_bind]
    cases hexDigitValue c <;> rfl
  | cons x xs ih =>
    intro acc
    simp only [List.cons_append, parseHexFrom]
    cases hexDigitValue x with
    | none => rfl
    | some d => exact ih _

theorem parseHexFrom_toDigits (n : Nat) :
    parseHexFrom 0 (Nat.toDigits 16 n) = some n := by
  induction n using Nat.strong_induction_on with
  | _ n ih =>
    by_cases h : n < 16
    · rw [toDigits_small 16 n h]
      simp [parseHexFrom, hexDigitValue_digitChar n h]
    · have hge : 16 ≤ n := by omega
      rw [toDigits_step 16 n (by omega) hge, parseHexFrom_append,
        ih (n / 16) (by omega), hexDigitValue_digitChar _ (Nat.mod_lt _ (by omega))]
      simp only [Option.some_bind, Option.map_some']
      congr 1
      omega

theorem toDigits_ne_nil (b n : Nat) (hb : 2 ≤ b) : Nat.toDigits b n ≠ [] := by
  by_cases h : n < b
  · rw [toDigits_small b n h]; simp
  · rw [toDigits_step b n hb (by omega)]; simp

theorem toDigits_head (n : Nat) (hn : 0 < n) :
    (Nat.toDigits 16 n).head? ≠ some '0' := by
  induction n using Nat.strong_induction_on with
  | _ n ih =>
    by_cases h : n < 16
    · rw [toDigits_small 16 n h]
      interval_cases n <;> decide
    · have hge : 16 ≤ n := by omega
      rw [toDigits_step 16 n (by omega) hge, List.head?_append_of_ne_nil _
        (toDigits_ne_nil 16 _ (by omega))]
      exact ih (n / 16) (by omega) (by omega)

theorem isHexNumeralOf_toDigits (n : Nat) : isHexNumeralOf (Nat.toDigits 16 n) n := by
  refine ⟨?_, fun h => ?_⟩
  · unfold parseHex
    rw [if_neg (toDigits_ne_nil 16 n (by omega))]
    exact parseHexFrom_toDigits n
  · rcases Nat.eq_zero_or_pos n with h0 | h0
    · subst h0; rfl
    · exact absurd h (toDigits_head n h0)

/-! ## Lemmas on `print_type` and `print_entry` -/

theorem print_type_eq (new_type : Nat) (new_ident : Ident) :
    print_type new_type new_ident =
      printf ("  Type:                              " ++
        (if type_value new_type new_ident = 0 then "NONE (None)\n"
         else if type_value new_type new_ident = 1 then "REL (Relocatable file)\n"
         else if type_value new_type new_ident = 2 then "EXEC (Executable file)\n"
         else if type_value new_type new_ident = 3 then "DYN (Shared object file)\n"
         else if type_value new_type new_ident = 4 then "CORE (Core file)\n"
         else "<unknown: " ++ fmt_x (type_value new_type new_ident) ++ ">\n")) := by
  unfold print_type type_value
  simp only [ET_NONE, ET_REL, ET_EXEC, ET_DYN, ET_CORE]
  split_ifs <;> rfl

theorem print_type_unknown (new_type : Nat) (new_ident : Ident)
    (h : 4 < type_value new_type new_ident) :
    print_type new_type new_ident =
      printf ("  Type:                              <unknown: " ++
        String.mk (Nat.toDigits 16 (type_value new_type new_ident)) ++ ">\n") := by
  rw [print_type_eq, if_neg (by omega), if_neg (by omega), if_neg (by omega),
    if_neg (by omega), if_neg (by omega)]
  rfl

theorem print_entry_eq (new_entry : Nat) (new_ident : Ident) :
    print_entry new_entry new_ident =
      printf ("  Entry point address:               " ++
        (fmt_alt_x (entry_value new_entry new_ident) ++ "\n")) := by
  unfold print_entry entry_value
  simp only []
  split_ifs <;> rfl

theorem print_entry_nonzero (new_entry : Nat) (new_ident : Ident)
    (h : entry_value new_entry new_ident ≠ 0) :
    print_entry new_entry new_ident =
      printf ("  Entry point address:               0x" ++
        String.mk (Nat.toDigits 16 (entry_value new_entry new_ident)) ++ "\n") := by
  rw [print_entry_eq, fmt_alt_x, if_neg h]
  rfl

theorem entry_value_little_endian (new_entry : Nat) (new_ident : Ident)
    (hdata : (new_ident 5).val ≠ 2) :
    entry_value new_entry new_ident =
      if (new_ident 4).val = 1 then new_entry % 2 ^ 32 else new_entry := by
  have h5 : ¬ (new_ident EI_DATA).val = ELFDATA2MSB := hdata
  unfold entry_value
  simp only [if_neg h5]
  rfl

theorem bswap32_eq_or (n : Nat) :
    bswap32 n =
      2 ^ 8 * (2 ^ 8 * (2 ^ 8 * (n % 2 ^ 8) ||| (n >>> 8) % 2 ^ 8) ||| (n >>> 16) % 2 ^ 8) |||
        (n >>> 24) % 2 ^ 8 := by
  have h1 : n / 2 ^ 8 % 256 < 2 ^ 8 := Nat.mod_lt _ (by norm_num)
  have h2 : n / 2 ^ 16 % 256 < 2 ^ 8 := Nat.mod_lt _ (by norm_num)
  have h3 : n / 2 ^ 24 % 256 < 2 ^ 8 := Nat.mod_lt _ (by norm_num)
  simp only [Nat.shiftRight_eq_div_pow]
  rw [show (2 : Nat) ^ 8 = 256 from rfl] at *
  rw [← Nat.mul_add_lt_is_or (i := 8) h3, ← Nat.mul_add_lt_is_or (i := 8) h2,
    ← Nat.mul_add_lt_is_or (i := 8) h1]
  unfold bswap32
  omega

theorem swap_entry_mod (e : Nat) : swap_entry e % 2 ^ 32 = bswap32 (e % 2 ^ 32) := by
  rw [bswap32_eq_or]
  apply Nat.eq_of_testBit_eq
  intro i
  unfold swap_entry
  simp only [Nat.testBit_mod_two_pow, Nat.testBit_or, Nat.testBit_and, Nat.testBit_shiftLeft,
    Nat.testBit_shiftRight, Nat.testBit_mul_pow_two]
  by_cases hi : i < 32
  · interval_cases i <;> simp [Nat.testBit]
  · have h8 : ¬ i < 8 := by omega
    have h32 : ¬ i < 32 := hi
    have a1 : ¬ i - 8 < 8 := by omega
    have a2 : ¬ i - 8 - 8 < 8 := by omega
    have a3 : ¬ i - 8 - 8 - 8 < 8 := by omega
    simp [h8, h32, a1, a2, a3]

theorem bswap32_lt (n : Nat) : bswap32 n < 2 ^ 32 := by
  unfold bswap32
  omega

theorem bswap32_bytes (b0 b1 b2 b3 : Nat) (h0 : b0 < 256) (h1 : b1 < 256) (h2 : b2 < 256)
    (h3 : b3 < 256) :
    bswap32 (b0 + b1 * 2 ^ 8 + b2 * 2 ^ 16 + b3 * 2 ^ 24) =
      b3 + b2 * 2 ^ 8 + b1 * 2 ^ 16 + b0 * 2 ^ 24 := by
  have e0 : (b0 + b1 * 2 ^ 8 + b2 * 2 ^ 16 + b3 * 2 ^ 24) % 256 = b0 := by omega
  have e1 : (b0 + b1 * 2 ^ 8 + b2 * 2 ^ 16 + b3 * 2 ^ 24) / 2 ^ 8 % 256 = b1 := by omega
  have e2 : (b0 + b1 * 2 ^ 8 + b2 * 2 ^ 16 + b3 * 2 ^ 24) / 2 ^ 16 % 256 = b2 := by omega
  have e3 : (b0 + b1 * 2 ^ 8 + b2 * 2 ^ 16 + b3 * 2 ^ 24) / 2 ^ 24 % 256 = b3 := by omega
  unfold bswap32
  rw [e0, e1, e2, e3]
  omega

theorem bswap32_bswap32 (n : Nat) : bswap32 (bswap32 n) = n % 2 ^ 32 := by
  have hn : bswap32 n =
      n / 2 ^ 24 % 256 + (n / 2 ^ 16 % 256) * 2 ^ 8 + (n / 2 ^ 8 % 256) * 2 ^ 16 +
        (n % 256) * 2 ^ 24 := by
    unfold bswap32
    omega
  rw [hn, bswap32_bytes _ _ _ _ (Nat.mod_lt _ (by norm_num)) (Nat.mod_lt _ (by norm_num))
    (Nat.mod_lt _ (by norm_num)) (Nat.mod_lt _ (by norm_num))]
  have d1 : n / 2 ^ 8 / 256 = n / 2 ^ 16 := by rw [Nat.div_div_eq_div_mul]; rfl
  have d2 : n / 2 ^ 16 / 256 = n / 2 ^ 24 := by rw [Nat.div_div_eq_div_mul]; rfl
  have d3 : n / 2 ^ 24 / 256 = n / 2 ^ 32 := by rw [Nat.div_div_eq_div_mul]; rfl
  omega

theorem entry_value_elf32_big_endian (new_entry : Nat) (new_ident : Ident)
    (hclass : (new_ident 4).val = 1) (hdata : (new_ident 5).val = 2) :
    entry_value new_entry new_ident = bswap32 (new_entry % 2 ^ 32) := by
  have h4 : (new_ident EI_CLASS).val = ELFCLASS32 := hclass
  have h5 : (new_ident EI_DATA).val = ELFDATA2MSB := hdata
  unfold entry_value
  simp only [if_pos h4, if_pos h5]
  exact swap_entry_mod new_entry

/-! ## Theorems on `print_type` and `print_entry` -/

/-- C11: for every known type code `t` in 0..4, `print_type` on the raw value `t * 256`
(high byte `t`, low byte 0) with data encoding `ELFDATA2MSB` (2) prints exactly what it
prints on the raw value `t` with data encoding `ELFDATA2LSB` (1); for `t = 2` both print
`EXEC (Executable file)`. -/
theorem print_type_big_endian_known (t : Nat) (be le : Ident) (ht : t ≤ 4)
    (hbe : (be 5).val = 2) (hle : (le 5).val = 1) :
    print_type (t * 256) be = print_type t le ∧
      print_type (2 * 256) be = printf "  Type:                              EXEC (Executable file)\n" ∧
      print_type 2 le = printf "  Type:                              EXEC (Executable file)\n" := by
  have hb : (be EI_DATA).val = ELFDATA2MSB := hbe
  have hl : ¬ (le EI_DATA).val = ELFDATA2MSB := by
    show ¬ (le 5).val = 2
    omega
  have hs : ∀ n : Nat, (n * 256) >>> 8 = n := fun n => by
    rw [Nat.shiftRight_eq_div_pow]
    omega
  refine ⟨?_, ?_, ?_⟩
  · interval_cases t <;> simp only [print_type, if_pos hb, if_neg hl, hs]
  · simp only [print_type, if_pos hb, hs]
    rfl
  · simp only [print_type, if_neg hl]
    rfl

/-- Witness for C11: raw bytes `02 00` read big-endian and raw value `0x0002` read
little-endian print the same line. -/
theorem print_type_big_endian_known_witness :
    print_type (2 * 256) (identOf [0x7F, 0x45, 0x4C, 0x46, 0x01, 0x02]) =
        print_type 2 (identOf [0x7F, 0x45, 0x4C, 0x46, 0x01, 0x01]) ∧
      print_type (2 * 256) (identOf [0x7F, 0x45, 0x4C, 0x46, 0x01, 0x02]) =
        printf "  Type:                              EXEC (Executable file)\n" ∧
      print_type 2 (identOf [0x7F, 0x45, 0x4C, 0x46, 0x01, 0x01]) =
        printf "  Type:                              EXEC (Executable file)\n" :=
  print_type_big_endian_known 2 (identOf [0x7F, 0x45, 0x4C, 0x46, 0x01, 0x02])
    (identOf [0x7F, 0x45, 0x4C, 0x46, 0x01, 0x01]) (by decide) (by decide) (by decide)

/-- C12: for a non-zero 64-bit entry value and a data encoding other than `ELFDATA2MSB`,
`print_entry` prints `0x` followed by the lowercase hexadecimal numeral, without leading
zeros, of `new_entry % 2 ^ 32` when the class byte is `ELFCLASS32` (that value being
non-zero) and of `new_entry` itself otherwise; ELF32 with `0x08000040` prints `0x8000040`,
ELF64 with `0x0000000000400078` prints `0x400078`. -/
theorem print_entry_little_endian (new_entry : Nat) (new_ident : Ident)
    (hpos : new_entry ≠ 0) (hlt : new_entry < 2 ^ 64) (hdata : (new_ident 5).val ≠ 2) :
    ((new_ident 4).val = 1 → new_entry % 2 ^ 32 ≠ 0 →
      ∃ ds : List Char,
        print_entry new_entry new_ident =
          printf ("  Entry point address:               0x" ++ String.mk ds ++ "\n") ∧
        isHexNumeralOf ds (new_entry % 2 ^ 32)) ∧
    ((new_ident 4).val ≠ 1 →
      ∃ ds : List Char,
        print_entry new_entry new_ident =
          printf ("  Entry point address:               0x" ++ String.mk ds ++ "\n") ∧
        isHexNumeralOf ds new_entry ∧ new_entry % 2 ^ 64 = new_entry) ∧
    print_entry 0x08000040 (identOf [0x7F, 0x45, 0x4C, 0x46, 0x01, 0x01]) =
      printf "  Entry point address:               0x8000040\n" ∧
    print_entry 0x0000000000400078 (identOf [0x7F, 0x45, 0x4C, 0x46, 0x02, 0x01]) =
      printf "  Entry point address:               0x400078\n" := by
  have hv := entry_value_little_endian new_entry new_ident hdata
  refine ⟨fun hc hne => ?_, fun hc => ?_, by decide, by decide⟩
  · rw [if_pos hc] at hv
    refine ⟨Nat.toDigits 16 (new_entry % 2 ^ 32), ?_, isHexNumeralOf_toDigits _⟩
    rw [print_entry_nonzero new_entry new_ident (by rw [hv]; exact hne), hv]
  · rw [if_neg hc] at hv
    refine ⟨Nat.toDigits 16 new_entry, ?_, isHexNumeralOf_toDigits _, Nat.mod_eq_of_lt hlt⟩
    rw [print_entry_nonzero new_entry new_ident (by rw [hv]; exact hpos), hv]

/-- Witness for C12: the two entry points of the specification. -/
theorem print_entry_little_endian_witness :
    (∃ ds : List Char,
        print_entry 0x08000040 (identOf [0x7F, 0x45, 0x4C, 0x46, 0x01, 0x01]) =
          printf ("  Entry point address:               0x" ++ String.mk ds ++ "\n") ∧
        isHexNumeralOf ds (0x08000040 % 2 ^ 32)) ∧
      (∃ ds : List Char,
        print_entry 0x0000000000400078 (identOf [0x7F, 0x45, 0x4C, 0x46, 0x02, 0x01]) =
          printf ("  Entry point address:               0x" ++ String.mk ds ++ "\n") ∧
        isHexNumeralOf ds 0x0000000000400078 ∧
        0x0000000000400078 % 2 ^ 64 = 0x0000000000400078) :=
  ⟨(print_entry_little_endian 0x08000040 (identOf [0x7F, 0x45, 0x4C, 0x46, 0x01, 0x01])
      (by decide) (by decide) (by decide)).1 (by decide) (by decide),
    (print_entry_little_endian 0x0000000000400078
      (identOf [0x7F, 0x45, 0x4C, 0x46, 0x02, 0x01])
      (by decide) (by decide) (by decide)).2.1 (by decide)⟩

/-- C13, on the code: the entry value 0 (ELF32, little endian) is printed by `%#x` as a bare
`0`, so the line does not carry the `0x` prefix that the claim requires of every entry
value. -/
theorem print_entry_zero_has_no_prefix :
    print_entry 0 (identOf [0x7F, 0x45, 0x4C, 0x46, 0x01, 0x01]) =
        printf "  Entry point address:               0\n" ∧
      ¬ ∃ h : String, print_entry 0 (identOf [0x7F, 0x45, 0x4C, 0x46, 0x01, 0x01]) =
        printf ("  Entry point address:               0x" ++ h ++ "\n") := by
  refine ⟨by decide, ?_⟩
  rintro ⟨h, e⟩
  have e0 : print_entry 0 (identOf [0x7F, 0x45, 0x4C, 0x46, 0x01, 0x01]) =
      printf "  Entry point address:               0\n" := by decide
  rw [e0] at e
  have := congrArg (fun x => x.out.data) e
  simp [printf, String.data_append] at this

/-- Whenever the number handed to `printf` (the entry value after the big-endian transform
and the ELF32 truncation) is non-zero, `print_entry` prints `0x` followed by the lowercase
hexadecimal numeral of that number. -/
theorem print_entry_prefix_of_nonzero (new_entry : Nat) (new_ident : Ident)
    (hne : entry_value new_entry new_ident ≠ 0) :
    ∃ ds : List Char,
      print_entry new_entry new_ident =
        printf ("  Entry point address:               0x" ++ String.mk ds ++ "\n") ∧
      isHexNumeralOf ds (entry_value new_entry new_ident) :=
  ⟨_, print_entry_nonzero new_entry new_ident hne, isHexNumeralOf_toDigits _⟩

/-- An instance of `print_entry_prefix_of_nonzero`: a big-endian ELF64 entry value. -/
theorem print_entry_prefix_of_nonzero_witness :
    ∃ ds : List Char,
      print_entry 0x00400078 (identOf [0x7F, 0x45, 0x4C, 0x46, 0x02, 0x02]) =
        printf ("  Entry point address:               0x" ++ String.mk ds ++ "\n") ∧
      isHexNumeralOf ds (entry_value 0x00400078 (identOf [0x7F, 0x45, 0x4C, 0x46, 0x02, 0x02])) :=
  print_entry_prefix_of_nonzero 0x00400078 (identOf [0x7F, 0x45, 0x4C, 0x46, 0x02, 0x02])
    (by decide)

/-- C14, as stated, fails: the unrecognised type 5 is printed as `<unknown: 5>`, and the
line does not have the form `<unknown: 0x...>`. -/
theorem print_type_unknown_has_no_prefix :
    print_type 5 (identOf [0x7F, 0x45, 0x4C, 0x46, 0x01, 0x01]) =
        printf "  Type:                              <unknown: 5>\n" ∧
      ¬ ∃ h : String, print_type 5 (identOf [0x7F, 0x45, 0x4C, 0x46, 0x01, 0x01]) =
        printf ("  Type:                              <unknown: 0x" ++ h ++ ">\n") := by
  refine ⟨by decide, ?_⟩
  rintro ⟨h, e⟩
  have e0 : print_type 5 (identOf [0x7F, 0x45, 0x4C, 0x46, 0x01, 0x01]) =
      printf "  Type:                              <unknown: 5>\n" := by decide
  rw [e0] at e
  have := congrArg (fun x => x.out.data) e
  simp [printf, String.data_append] at this

/-- C14, amended: for every raw type that `print_type` does not recognise (its value after
the big-endian shift is outside 0..4), the line is `<unknown: HEX>`: the literal
`<unknown: `, the lowercase hexadecimal numeral of that value (no `0x`), then `>`; and
`print_type` never fails: it writes nothing to standard error and does not exit. -/
theorem print_type_unknown_form (new_type : Nat) (new_ident : Ident)
    (hu : 4 < type_value new_type new_ident) :
    (∃ ds : List Char,
      print_type new_type new_ident =
        printf ("  Type:                              <unknown: " ++ String.mk ds ++ ">\n") ∧
      isHexNumeralOf ds (type_value new_type new_ident)) ∧
    (∀ (t : Nat) (ident : Ident),
      (print_type t ident).exit = none ∧ (print_type t ident).err = "") :=
  ⟨⟨_, print_type_unknown new_type new_ident hu, isHexNumeralOf_toDigits _⟩,
    fun t ident => by rw [print_type_eq]; exact ⟨rfl, rfl⟩⟩

/-- Witness for the amended C14: raw type `0xFE00` read big-endian. -/
theorem print_type_unknown_form_witness :
    (∃ ds : List Char,
      print_type 0xFE00 (identOf [0x7F, 0x45, 0x4C, 0x46, 0x01, 0x02]) =
        printf ("  Type:                              <unknown: " ++ String.mk ds ++ ">\n") ∧
      isHexNumeralOf ds (type_value 0xFE00 (identOf [0x7F, 0x45, 0x4C, 0x46, 0x01, 0x02]))) ∧
    (∀ (t : Nat) (ident : Ident),
      (print_type t ident).exit = none ∧ (print_type t ident).err = "") :=
  print_type_unknown_form 0xFE00 (identOf [0x7F, 0x45, 0x4C, 0x46, 0x01, 0x02]) (by decide)

/-- C18, on the code: with a 64-bit `unsigned long` the second assignment
`(new_entry << 16) | (new_entry >> 16)` is not cut to 32 bits, so for the entry value
`0x01000000` the transform yields `0x100000001`, not the 4-byte reversal `0x1`; ELF64
prints `0x100000001` (not below `2 ^ 32`), and only the ELF32 cast restores `0x1`. -/
theorem print_entry_elf64_big_endian_exceeds_32_bits :
    swap_entry 0x01000000 = 0x100000001 ∧
    bswap32 (0x01000000 % 2 ^ 32) = 0x1 ∧
    ¬ swap_entry 0x01000000 < 2 ^ 32 ∧
    print_entry 0x01000000 (identOf [0x7F, 0x45, 0x4C, 0x46, 0x02, 0x02]) =
      printf "  Entry point address:               0x100000001\n" ∧
    print_entry 0x01000000 (identOf [0x7F, 0x45, 0x4C, 0x46, 0x01, 0x02]) =
      printf "  Entry point address:               0x1\n" := by
  decide

/-- C19, as stated, fails: with big-endian data encoding the unrecognised raw type
`0x0500` is printed as `<unknown: 5>`, the value after the shift, not as `<unknown: 500>`. -/
theorem print_type_unknown_prints_shifted_value :
    print_type 0x0500 (identOf [0x7F, 0x45, 0x4C, 0x46, 0x01, 0x02]) =
        printf "  Type:                              <unknown: 5>\n" ∧
      print_type 0x0500 (identOf [0x7F, 0x45, 0x4C, 0x46, 0x01, 0x02]) ≠
        printf "  Type:                              <unknown: 500>\n" := by
  decide

/-- C19, amended: for every raw type that falls in the fallback case under big-endian data
encoding, the hexadecimal numeral printed is that of the value after the 8-bit right shift
(`new_type / 256`, the value the `switch` is taken on), and not that of the raw value. -/
theorem print_type_big_endian_unknown (new_type : Nat) (new_ident : Ident)
    (hdata : (new_ident 5).val = 2) (hu : 4 < new_type / 256) :
    ∃ ds : List Char,
      print_type new_type new_ident =
        printf ("  Type:                              <unknown: " ++ String.mk ds ++ ">\n") ∧
      isHexNumeralOf ds (new_type / 256) ∧ ¬ isHexNumeralOf ds new_type := by
  have h5 : (new_ident EI_DATA).val = ELFDATA2MSB := hdata
  have hv : type_value new_type new_ident = new_type / 256 := by
    unfold type_value
    rw [if_pos h5, Nat.shiftRight_eq_div_pow]
  have hnum := isHexNumeralOf_toDigits (new_type / 256)
  refine ⟨Nat.toDigits 16 (new_type / 256), ?_, hnum, fun hraw => ?_⟩
  · rw [print_type_unknown new_type new_ident (by rw [hv]; exact hu), hv]
  · have h := hnum.1.symm.trans hraw.1
    injection h with h
    omega

/-- Witness for the amended C19: raw type `0x0500` read big-endian. -/
theorem print_type_big_endian_unknown_witness :
    ∃ ds : List Char,
      print_type 0x0500 (identOf [0x7F, 0x45, 0x4C, 0x46, 0x01, 0x02]) =
        printf ("  Type:                              <unknown: " ++ String.mk ds ++ ">\n") ∧
      isHexNumeralOf ds (0x0500 / 256) ∧ ¬ isHexNumeralOf ds 0x0500 :=
  print_type_big_endian_unknown 0x0500 (identOf [0x7F, 0x45, 0x4C, 0x46, 0x01, 0x02])
    (by decide) (by decide)

/-- C20: for class `ELFCLASS32` and data encoding `ELFDATA2MSB`, the number `print_entry`
prints for any entry value is `bswap32 (new_entry % 2 ^ 32)`, the 4-byte reversal of the
low 32 bits; so the line depends only on the low 32 bits of the entry value, and feeding
the printed number back through the same path returns `new_entry % 2 ^ 32`. -/
theorem print_entry_elf32_big_endian (new_entry : Nat) (new_ident : Ident)
    (hclass : (new_ident 4).val = 1) (hdata : (new_ident 5).val = 2) :
    entry_value new_entry new_ident = bswap32 (new_entry % 2 ^ 32) ∧
    print_entry new_entry new_ident =
      printf ("  Entry point address:               " ++
        (fmt_alt_x (bswap32 (new_entry % 2 ^ 32)) ++ "\n")) ∧
    (∀ other : Nat, other % 2 ^ 32 = new_entry % 2 ^ 32 →
      print_entry other new_ident = print_entry new_entry new_ident) ∧
    entry_value (entry_value new_entry new_ident) new_ident = new_entry % 2 ^ 32 := by
  have hv := entry_value_elf32_big_endian new_entry new_ident hclass hdata
  refine ⟨hv, ?_, fun other ho => ?_, ?_⟩
  · rw [print_entry_eq, hv]
  · rw [print_entry_eq, print_entry_eq, hv,
      entry_value_elf32_big_endian other new_ident hclass hdata, ho]
  · rw [entry_value_elf32_big_endian _ new_ident hclass hdata, hv,
      Nat.mod_eq_of_lt (bswap32_lt _), bswap32_bswap32, Nat.mod_mod]

/-- Witness for C20: the entry value `0x1122334408000040` under ELF32, big endian. -/
theorem print_entry_elf32_big_endian_witness :
    entry_value 0x1122334408000040 (identOf [0x7F, 0x45, 0x4C, 0x46, 0x01, 0x02]) =
      bswap32 (0x1122334408000040 % 2 ^ 32) ∧
    print_entry 0x1122334408000040 (identOf [0x7F, 0x45, 0x4C, 0x46, 0x01, 0x02]) =
      printf ("  Entry point address:               " ++
        (fmt_alt_x (bswap32 (0x1122334408000040 % 2 ^ 32)) ++ "\n")) ∧
    (∀ other : Nat, other % 2 ^ 32 = 0x1122334408000040 % 2 ^ 32 →
      print_entry other (identOf [0x7F, 0x45, 0x4C, 0x46, 0x01, 0x02]) =
        print_entry 0x1122334408000040 (identOf [0x7F, 0x45, 0x4C, 0x46, 0x01, 0x02])) ∧
    entry_value
        (entry_value 0x1122334408000040 (identOf [0x7F, 0x45, 0x4C, 0x46, 0x01, 0x02]))
        (identOf [0x7F, 0x45, 0x4C, 0x46, 0x01, 0x02]) =
      0x1122334408000040 % 2 ^ 32 :=
  print_entry_elf32_big_endian 0x1122334408000040
    (identOf [0x7F, 0x45, 0x4C, 0x46, 0x01, 0x02]) (by decide) (by decide)

/-! ## Lemmas on the rendered lines -/

theorem digitChar_eq_lowerHexDigit (d : Nat) (h : d < 16) :
    Nat.digitChar d = lowerHexDigit d := by
  interval_cases d <;> rfl

theorem hexDigitValue_mem (c : Char) (d : Nat) (h : hexDigitValue c = some d) :
    c ∈ "0123456789abcdef".data := by
  unfold hexDigitValue at h
  by_cases hlt : List.indexOf c "0123456789abcdef".data < 16
  · exact List.indexOf_lt_length.mp hlt
  · simp only [hlt, if_false] at h
    exact absurd h (by simp)

theorem parseHexFrom_mem : ∀ (cs : List Char) (acc n : Nat),
    parseHexFrom acc cs = some n → ∀ c ∈ cs, c ∈ "0123456789abcdef".data
  | [], _, _, _ => by simp
  | x :: xs, acc, n, h => by
    intro c hc
    unfold parseHexFrom at h
    cases hx : hexDigitValue x with
    | none => rw [hx] at h; exact absurd h (by simp)
    | some d =>
      rw [hx] at h
      rcases List.mem_cons.mp hc with rfl | hc
      · exact hexDigitValue_mem _ d hx
      · exact parseHexFrom_mem xs _ n h c hc

theorem toDigits_hex_mem (n : Nat) :
    ∀ c ∈ Nat.toDigits 16 n, c ∈ "0123456789abcdef".data := by
  have h := (isHexNumeralOf_toDigits n).1
  unfold parseHex at h
  rw [if_neg (toDigits_ne_nil 16 n (by omega))] at h
  exact parseHexFrom_mem _ 0 n h

theorem digitChar_dec_mem (d : Nat) (h : d < 10) :
    Nat.digitChar d ∈ "0123456789".data := by
  interval_cases d <;> decide

theorem toDigits_dec_mem (n : Nat) :
    ∀ c ∈ Nat.toDigits 10 n, c ∈ "0123456789".data := by
  induction n using Nat.strong_induction_on with
  | _ n ih =>
    by_cases h : n < 10
    · rw [toDigits_small 10 n h]
      intro c hc
      rw [List.mem_singleton.mp hc]
      exact digitChar_dec_mem n h
    · rw [toDigits_step 10 n (by omega) (by omega)]
      intro c hc
      rcases List.mem_append.mp hc with hc | hc
      · exact ih (n / 10) (by omega) c hc
      · rw [List.mem_singleton.mp hc]
        exact digitChar_dec_mem _ (Nat.mod_lt _ (by omega))

theorem fmt_02x_byte (b : UChar) : fmt_02x b.val = String.mk (twoHexDigits b) := by
  have hb : b.val < 256 := b.isLt
  unfold fmt_02x fmt_x twoHexDigits
  by_cases h : b.val < 16
  · rw [if_pos h, toDigits_small 16 _ h, digitChar_eq_lowerHexDigit _ h,
      Nat.div_eq_of_lt h, Nat.mod_eq_of_lt h]
    rfl
  · have hd : b.val / 16 < 16 := by omega
    rw [if_neg h, toDigits_step 16 _ (by omega) (by omega), toDigits_small 16 _ hd,
      digitChar_eq_lowerHexDigit _ hd,
      digitChar_eq_lowerHexDigit _ (Nat.mod_lt _ (by omega))]
    rfl

theorem parseHex_twoHexDigits (b : UChar) : parseHex (twoHexDigits b) = some b.val := by
  have hb : b.val < 256 := b.isLt
  have hd : b.val / 16 < 16 := by omega
  have hm : b.val % 16 < 16 := Nat.mod_lt _ (by omega)
  unfold twoHexDigits
  rw [← digitChar_eq_lowerHexDigit _ hd, ← digitChar_eq_lowerHexDigit _ hm]
  simp only [parseHex, parseHexFrom, hexDigitValue_digitChar _ hd,
    hexDigitValue_digitChar _ hm, List.cons_ne_nil, if_false, reduceCtorEq]
  congr 1
  omega

theorem space_not_mem_twoHexDigits (b : UChar) : ' ' ∉ twoHexDigits b := by
  intro h
  have hp := parseHex_twoHexDigits b
  unfold parseHex at hp
  rw [if_neg (by simp [twoHexDigits])] at hp
  exact absurd (parseHexFrom_mem _ 0 _ hp ' ' h) (by decide)

theorem print_magic_eq (new_ident : Ident) :
    print_magic new_ident =
      printf ("  Magic:   " ++ String.mk ([' '].intercalate (magicTokens new_ident)) ++ "\n") := by
  simp only [print_magic, print_magic_loop, EI_NIDENT, fmt_02x_byte]
  rfl

theorem print_class_unknown (new_ident : Ident) (h0 : (new_ident 4).val ≠ 0)
    (h1 : (new_ident 4).val ≠ 1) (h2 : (new_ident 4).val ≠ 2) :
    print_class new_ident =
      printf ("  Class:                             <unknown: " ++
        String.mk (Nat.toDigits 16 (new_ident 4).val) ++ ">\n") := by
  unfold print_class
  simp only [EI_CLASS, ELFCLASSNONE, ELFCLASS32, ELFCLASS64]
  rw [if_neg h0, if_neg h1, if_neg h2]
  rfl

theorem print_osabi_unknown (new_ident : Ident)
    (h : (new_ident 7).val ∉ [0, 1, 2, 3, 6, 8, 9, 10, 97, 255]) :
    print_osabi new_ident =
      printf ("  OS/ABI:                            <unknown: " ++
        String.mk (Nat.toDigits 16 (new_ident 7).val) ++ ">\n") := by
  simp only [List.mem_cons, List.mem_singleton, List.not_mem_nil, or_false, not_or] at h
  obtain ⟨h0, h1, h2, h3, h6, h8, h9, h10, h97, h255⟩ := h
  unfold print_osabi
  simp only [EI_OSABI, ELFOSABI_NONE, ELFOSABI_HPUX, ELFOSABI_NETBSD, ELFOSABI_LINUX,
    ELFOSABI_SOLARIS, ELFOSABI_IRIX, ELFOSABI_FREEBSD, ELFOSABI_TRU64, ELFOSABI_ARM,
    ELFOSABI_STANDALONE]
  rw [if_neg h0, if_neg h1, if_neg h2, if_neg h3, if_neg h6, if_neg h8, if_neg h9,
    if_neg h10, if_neg h97, if_neg h255]
  rfl

theorem gt_not_mem_toDigits (n : Nat) : '>' ∉ Nat.toDigits 16 n :=
  fun h => absurd (toDigits_hex_mem n _ h) (by decide)

theorem isOneLine_printf (body : String) (h : '\n' ∉ body.data) :
    isOneLine (printf (body ++ "\n")) := by
  have hd : (body ++ "\n").data = body.data ++ ['\n'] := by
    rw [String.data_append]
  refine ⟨rfl, rfl, ?_, ?_⟩
  · show (body ++ "\n").data.getLast? = some '\n'
    rw [hd, List.getLast?_append]
    rfl
  · show '\n' ∉ (body ++ "\n").data.dropLast
    rw [hd, List.dropLast_concat]
    exact h

theorem isOneLine_two (a b : String) (ha : '\n' ∉ a.data) (hb : '\n' ∉ b.data) :
    isOneLine ((printf a).andThen (printf (b ++ "\n"))) := by
  rw [printf_andThen_printf, ← String.append_assoc]
  refine isOneLine_printf (a ++ b) ?_
  rw [String.data_append, List.mem_append]
  exact fun h => h.elim ha hb

theorem newline_not_mem_hex (n : Nat) : '\n' ∉ (fmt_x n).data :=
  fun h => absurd (toDigits_hex_mem n _ h) (by decide)

theorem newline_not_mem_dec (n : Nat) : '\n' ∉ (fmt_d n).data :=
  fun h => absurd (toDigits_dec_mem n _ h) (by decide)

theorem newline_not_mem_alt (n : Nat) : '\n' ∉ (fmt_alt_x n).data := by
  unfold fmt_alt_x
  split_ifs
  · decide
  · rw [String.data_append, List.mem_append]
    exact fun h => h.elim (by decide) (newline_not_mem_hex n)

theorem isOneLine_unknown (label : String) (v : Nat) (hl : '\n' ∉ label.data) :
    isOneLine ((printf label).andThen (printf ("<unknown: " ++ fmt_x v ++ ">\n"))) := by
  have e : "<unknown: " ++ fmt_x v ++ ">\n" = ("<unknown: " ++ fmt_x v ++ ">") ++ "\n" := by
    rw [String.append_assoc ("<unknown: " ++ fmt_x v)]
    rfl
  rw [e]
  refine isOneLine_two label _ hl ?_
  simp only [String.data_append, List.mem_append, not_or]
  exact ⟨⟨by decide, newline_not_mem_hex v⟩, by decide⟩

theorem lowerHexDigit_mem (d : Nat) : lowerHexDigit d ∈ "0123456789abcdef".data := by
  by_cases h : d < 16
  · interval_cases d <;> decide
  · have hlen : "0123456789abcdef".data.length ≤ d := by
      show 16 ≤ d
      omega
    unfold lowerHexDigit
    rw [List.getD_eq_default _ _ hlen]
    decide

theorem newline_not_mem_intercalate : ∀ tokens : List (List Char),
    (∀ t ∈ tokens, '\n' ∉ t) → '\n' ∉ [' '].intercalate tokens
  | [], _ => by simp [List.intercalate]
  | [t], h => by
    have ht := h t (List.mem_singleton.mpr rfl)
    simpa [List.intercalate] using ht
  | t :: u :: rest, h => by
    have ht := h t (List.mem_cons_self _ _)
    have ih := newline_not_mem_intercalate (u :: rest)
      (fun x hx => h x (List.mem_cons_of_mem _ hx))
    have e : [' '].intercalate (t :: u :: rest) =
        t ++ ' ' :: [' '].intercalate (u :: rest) := by
      simp [List.intercalate]
    rw [e, List.mem_append, List.mem_cons]
    rintro (h1 | h2 | h3)
    · exact ht h1
    · exact absurd h2 (by decide)
    · exact ih h3

theorem print_magic_oneLine (new_ident : Ident) : isOneLine (print_magic new_ident) := by
  rw [print_magic_eq]
  refine isOneLine_printf _ ?_
  rw [String.data_append, List.mem_append]
  rintro (h | h)
  · exact absurd h (by decide)
  · refine newline_not_mem_intercalate _ (fun t ht => ?_) h
    obtain ⟨idx, _, rfl⟩ := List.mem_map.mp ht
    intro hn
    simp only [twoHexDigits, List.mem_cons, List.mem_singleton, List.not_mem_nil,
      or_false] at hn
    rcases hn with hn | hn
    · exact absurd (hn ▸ lowerHexDigit_mem _) (by decide)
    · exact absurd (hn ▸ lowerHexDigit_mem _) (by decide)

theorem print_class_oneLine (new_ident : Ident) : isOneLine (print_class new_ident) := by
  have hl : '\n' ∉ "  Class:                             ".data := by decide
  unfold print_class
  split_ifs
  · exact isOneLine_two _ "none" hl (by decide)
  · exact isOneLine_two _ "ELF32" hl (by decide)
  · exact isOneLine_two _ "ELF64" hl (by decide)
  · exact isOneLine_unknown _ _ hl

theorem print_data_oneLine (new_ident : Ident) : isOneLine (print_data new_ident) := by
  have hl : '\n' ∉ "  Data:                              ".data := by decide
  unfold print_data
  split_ifs
  · exact isOneLine_two _ "none" hl (by decide)
  · exact isOneLine_two _ "2's complement, little endian" hl (by decide)
  · exact isOneLine_two _ "2's complement, big endian" hl (by decide)
  · exact isOneLine_unknown _ _ hl

theorem print_version_oneLine (new_ident : Ident) : isOneLine (print_version new_ident) := by
  have hl : '\n' ∉ ("  Version:                           " ++
      fmt_d (new_ident EI_VERSION).val).data := by
    rw [String.data_append, List.mem_append]
    exact fun h => h.elim (by decide) (newline_not_mem_dec _)
  unfold print_version
  split_ifs
  · exact isOneLine_two _ " (current)" hl (by decide)
  · exact isOneLine_two _ "" hl (by decide)

set_option maxHeartbeats 1000000 in
theorem print_osabi_oneLine (new_ident : Ident) : isOneLine (print_osabi new_ident) := by
  have hl : '\n' ∉ "  OS/ABI:                            ".data := by decide
  unfold print_osabi
  split_ifs
  · exact isOneLine_two _ "UNIX - System V" hl (by decide)
  · exact isOneLine_two _ "UNIX - HP-UX" hl (by decide)
  · exact isOneLine_two _ "UNIX - NetBSD" hl (by decide)
  · exact isOneLine_two _ "UNIX - Linux" hl (by decide)
  · exact isOneLine_two _ "UNIX - Solaris" hl (by decide)
  · exact isOneLine_two _ "UNIX - IRIX" hl (by decide)
  · exact isOneLine_two _ "UNIX - FreeBSD" hl (by decide)
  · exact isOneLine_two _ "UNIX - TRU64" hl (by decide)
  · exact isOneLine_two _ "ARM" hl (by decide)
  · exact isOneLine_two _ "Standalone App" hl (by decide)
  · exact isOneLine_unknown _ _ hl

theorem print_abi_oneLine (new_ident : Ident) : isOneLine (print_abi new_ident) := by
  unfold print_abi
  refine isOneLine_printf _ ?_
  rw [String.data_append, List.mem_append]
  exact fun h => h.elim (by decide) (newline_not_mem_dec _)

theorem print_type_oneLine (new_type : Nat) (new_ident : Ident) :
    isOneLine (print_type new_type new_ident) := by
  have hl : '\n' ∉ "  Type:                              ".data := by decide
  simp only [print_type]
  generalize (if (new_ident EI_DATA).val = ELFDATA2MSB then new_type >>> 8 else new_type) = v
  split_ifs
  · exact isOneLine_two _ "NONE (None)" hl (by decide)
  · exact isOneLine_two _ "REL (Relocatable file)" hl (by decide)
  · exact isOneLine_two _ "EXEC (Executable file)" hl (by decide)
  · exact isOneLine_two _ "DYN (Shared object file)" hl (by decide)
  · exact isOneLine_two _ "CORE (Core file)" hl (by decide)
  · exact isOneLine_unknown _ _ hl

theorem print_entry_oneLine (new_entry : Nat) (new_ident : Ident) :
    isOneLine (print_entry new_entry new_ident) := by
  rw [print_entry_eq, ← String.append_assoc]
  refine isOneLine_printf _ ?_
  rw [String.data_append, List.mem_append]
  exact fun h => h.elim (by decide) (newline_not_mem_alt _)

/-! ## Theorems on the rendered lines -/

/-- C15: for every class byte outside 0, 1, 2 and every OS/ABI byte outside the ten table
values, the text printed by `print_class`, respectively `print_osabi`, between
`<unknown: ` and `>` parses, as lowercase hexadecimal, back to the raw byte. -/
theorem unknown_literal_round_trip (new_ident : Ident) :
    ((new_ident 4).val ∉ [0, 1, 2] →
      ∃ ds : List Char,
        print_class new_ident =
          printf ("  Class:                             <unknown: " ++ String.mk ds ++ ">\n") ∧
        '>' ∉ ds ∧ parseHex ds = some (new_ident 4).val) ∧
    ((new_ident 7).val ∉ [0, 1, 2, 3, 6, 8, 9, 10, 97, 255] →
      ∃ ds : List Char,
        print_osabi new_ident =
          printf ("  OS/ABI:                            <unknown: " ++ String.mk ds ++ ">\n") ∧
        '>' ∉ ds ∧ parseHex ds = some (new_ident 7).val) := by
  refine ⟨fun h => ?_, fun h => ?_⟩
  · simp only [List.mem_cons, List.mem_singleton, List.not_mem_nil, or_false, not_or] at h
    exact ⟨_, print_class_unknown new_ident h.1 h.2.1 h.2.2, gt_not_mem_toDigits _,
      (isHexNumeralOf_toDigits _).1⟩
  · exact ⟨_, print_osabi_unknown new_ident h, gt_not_mem_toDigits _,
      (isHexNumeralOf_toDigits _).1⟩

/-- Witness for C15: class byte `0xAB` and OS/ABI byte `0xFE`. -/
theorem unknown_literal_round_trip_witness :
    (∃ ds : List Char,
        print_class (identOf [0x7F, 0x45, 0x4C, 0x46, 0xAB, 0x01, 0x01, 0xFE]) =
          printf ("  Class:                             <unknown: " ++ String.mk ds ++ ">\n") ∧
        '>' ∉ ds ∧ parseHex ds = some 0xAB) ∧
    (∃ ds : List Char,
        print_osabi (identOf [0x7F, 0x45, 0x4C, 0x46, 0xAB, 0x01, 0x01, 0xFE]) =
          printf ("  OS/ABI:                            <unknown: " ++ String.mk ds ++ ">\n") ∧
        '>' ∉ ds ∧ parseHex ds = some 0xFE) :=
  ⟨(unknown_literal_round_trip
      (identOf [0x7F, 0x45, 0x4C, 0x46, 0xAB, 0x01, 0x01, 0xFE])).1 (by decide),
    (unknown_literal_round_trip
      (identOf [0x7F, 0x45, 0x4C, 0x46, 0xAB, 0x01, 0x01, 0xFE])).2 (by decide)⟩

/-- C16: `print_magic` prints one line: the label `  Magic:   `, then the 16 bytes in index
order, each as exactly two lowercase hexadecimal digits, separated by single spaces, and a
newline directly after the last byte; splitting the text after the label on spaces and
parsing each token as hexadecimal gives back the 16 bytes. -/
theorem print_magic_line (new_ident : Ident) :
    print_magic new_ident =
      printf ("  Magic:   " ++ String.mk ([' '].intercalate (magicTokens new_ident)) ++ "\n") ∧
    (magicTokens new_ident).length = 16 ∧
    (∀ t ∈ magicTokens new_ident, t.length = 2 ∧ ∀ c ∈ t, c ∈ "0123456789abcdef".data) ∧
    (([' '].intercalate (magicTokens new_ident)).splitOn ' ').map parseHex =
      (List.range 16).map (fun idx => some (new_ident idx).val) ∧
    print_magic sampleIdent =
      printf "  Magic:   7f 45 4c 46 02 01 01 00 00 00 00 00 00 00 00 00\n" := by
  refine ⟨print_magic_eq new_ident, rfl, fun t ht => ?_, ?_, by decide⟩
  · obtain ⟨idx, _, rfl⟩ := List.mem_map.mp ht
    refine ⟨rfl, ?_⟩
    have hp := parseHex_twoHexDigits (new_ident idx)
    unfold parseHex at hp
    rw [if_neg (by simp [twoHexDigits])] at hp
    exact parseHexFrom_mem _ 0 _ hp
  · have hx : ∀ t ∈ magicTokens new_ident, ' ' ∉ t := by
      intro t ht
      obtain ⟨idx, _, rfl⟩ := List.mem_map.mp ht
      exact space_not_mem_twoHexDigits (new_ident idx)
    have hls : magicTokens new_ident ≠ [] := by
      intro h
      have hlen : (magicTokens new_ident).length = 16 := rfl
      rw [h] at hlen
      exact absurd hlen (by decide)
    rw [List.splitOn_intercalate (magicTokens new_ident) ' ' hx hls]
    unfold magicTokens
    rw [List.map_map]
    exact List.map_congr_left (fun idx _ => parseHex_twoHexDigits (new_ident idx))

/-- Witness for C16: on the sample block, splitting the printed bytes on spaces and
parsing each token gives back the 16 bytes. -/
theorem print_magic_line_witness :
    (([' '].intercalate (magicTokens sampleIdent)).splitOn ' ').map parseHex =
      (List.range 16).map (fun idx => some (sampleIdent idx).val) :=
  (print_magic_line sampleIdent).2.2.2.1

/-- C17: every field decoder is total and emits exactly one line: for every identification
buffer, raw type and raw entry value, each of `print_magic`, `print_class`, `print_data`,
`print_version`, `print_osabi`, `print_abi`, `print_type` and `print_entry` returns without
exiting, writes nothing to standard error, and prints text that ends with a newline and
contains no other newline. -/
theorem decoders_emit_one_line (new_ident : Ident) (new_type new_entry : Nat) :
    isOneLine (print_magic new_ident) ∧
    isOneLine (print_class new_ident) ∧
    isOneLine (print_data new_ident) ∧
    isOneLine (print_version new_ident) ∧
    isOneLine (print_osabi new_ident) ∧
    isOneLine (print_abi new_ident) ∧
    isOneLine (print_type new_type new_ident) ∧
    isOneLine (print_entry new_entry new_ident) :=
  ⟨print_magic_oneLine new_ident, print_class_oneLine new_ident,
    print_data_oneLine new_ident, print_version_oneLine new_ident,
    print_osabi_oneLine new_ident, print_abi_oneLine new_ident,
    print_type_oneLine new_type new_ident, print_entry_oneLine new_entry new_ident⟩

end ElfHeader
